import Mathlib

/-!
Verification development for the agentic-AI performance analysis script
(`analyze_data.py`).  The script loads a tabular dataset, computes three
groupby aggregations (two proportion-of-boolean-flag aggregations and one
median aggregation), each sorted descending and truncated to the top 3,
and assembles the results into a self-contained HTML document.

The embedding below models:
  - a table as a `List Row`, where each referenced column value is an
    `Option` (`none` models a missing / NaN cell, as pandas does);
  - `groupby(col)` as grouping over the sorted distinct non-null keys
    (pandas drops null keys and sorts keys ascending by default);
  - `SeriesGroupBy.count` as the number of non-null values of the selected
    column in the group, and `SeriesGroupBy.sum` on a boolean column as
    the number of `true` values (pandas skips NaN and counts true as 1);
  - float NaN as `none : Option ℚ`; real arithmetic is carried out over ℚ
    with round-half-to-even at a fixed number of decimal places, the
    idealised form of the numpy/pandas `.round` used by the script;
  - the descending `sort_values(..., ascending=False)` (NaN placed last,
    matching the default na_position) as an insertion sort under the
    relation that compares the sort key through `WithBot ℚ` with NaN at
    the bottom.
-/

/-- One record of the dataset.  Only the five columns referenced by the
three aggregations are modelled; each is optional because a pandas cell
can hold NaN / missing data. -/
structure Row where
  agent_type : Option String
  model_architecture : Option String
  task_category : Option String
  multimodal_capability : Option Bool
  bias_detection_score : Option ℚ
deriving DecidableEq, Repr

/-- Round-half-to-even to the nearest integer (the rounding mode of
numpy / pandas `.round` and Python `round`). -/
def roundHalfEven (x : ℚ) : ℤ :=
  if x - ⌊x⌋ < 1/2 then ⌊x⌋
  else if 1/2 < x - ⌊x⌋ then ⌊x⌋ + 1
  else if 2 ∣ ⌊x⌋ then ⌊x⌋ else ⌊x⌋ + 1

/-- `roundTo n x` models `round(x, n)` / `Series.round(n)`: round
half-to-even at `n` decimal places. -/
def roundTo (n : ℕ) (x : ℚ) : ℚ :=
  (roundHalfEven (x * 10 ^ n) : ℚ) / 10 ^ n

/-- The sorted distinct non-null keys of a table under a key column:
pandas `groupby(col)` (default `dropna=True`, `sort=True`) produces
exactly these group labels, ascending. -/
def groupKeys (key : Row → Option String) (t : List Row) : List String :=
  ((t.filterMap key).dedup).insertionSort (fun a b => a ≤ b)

/-- The rows of `t` belonging to group `k` of the key column. -/
def groupRows (key : Row → Option String) (t : List Row) (k : String) : List Row :=
  t.filter (fun r => key r == some k)

/-- One output record of the two proportion aggregations
(`name`, `proportion`, `count`, `total`).  `proportion = none` models the
float NaN that pandas produces when a group's non-null flag count is 0. -/
structure PropRec where
  name : String
  proportion : Option ℚ
  count : ℕ
  total : ℕ
deriving DecidableEq, Repr

/-- One output record of the median aggregation (`name`, `median`).
`median = none` models NaN (group with no non-null score). -/
structure MedRec where
  name : String
  median : Option ℚ
deriving DecidableEq, Repr

/-- Sort key used by `sort_values(..., ascending=False)`: NaN (`none`)
compares below every number, which models the default
`na_position=last` of a descending pandas sort. -/
def naKey (x : Option ℚ) : WithBot ℚ :=
  match x with
  | none => ⊥
  | some v => (v : WithBot ℚ)

/-- Descending-order relation on proportion records: `a` may come before
`b` when `b`'s proportion is ≤ `a`'s (NaN last). -/
def propGE (a b : PropRec) : Prop := naKey b.proportion ≤ naKey a.proportion

/-- Descending-order relation on median records (NaN last). -/
def medGE (a b : MedRec) : Prop := naKey b.median ≤ naKey a.median

instance : DecidableRel propGE :=
  fun a b => inferInstanceAs (Decidable (naKey b.proportion ≤ naKey a.proportion))

instance : DecidableRel medGE :=
  fun a b => inferInstanceAs (Decidable (naKey b.median ≤ naKey a.median))

instance : IsTotal PropRec propGE := ⟨fun a b => le_total (naKey b.proportion) (naKey a.proportion)⟩

instance : IsTrans PropRec propGE := ⟨fun _ _ _ h1 h2 => le_trans h2 h1⟩

instance : IsTotal MedRec medGE := ⟨fun a b => le_total (naKey b.median) (naKey a.median)⟩

instance : IsTrans MedRec medGE := ⟨fun _ _ _ h1 h2 => le_trans h2 h1⟩

/-- The per-group statistics of a proportion aggregation, computed from
the rows of one group, as in lines 52-56 of `analyze_data.py`:
`total = grouped.count()` is the number of non-null flag values,
`count = grouped.sum()` counts `true` as 1 and `false` as 0 (skipping
NaN), and `proportion = (count / total * 100).round(2)`, which is NaN
(`none`) when `total = 0`. -/
def propRecord (rows : List Row) (k : String) : PropRec :=
  let flags := rows.filterMap (fun r => r.multimodal_capability)
  let total := flags.length
  let count := (flags.filter (fun b => b)).length
  { name := k
    proportion :=
      if total = 0 then none
      else some (roundTo 2 ((count : ℚ) / (total : ℚ) * 100))
    count := count
    total := total }

/-- Generic proportion aggregation underlying both
`analyze_agent_type_multimodal` and `analyze_model_architecture_multimodal`
(their bodies in the source are identical up to the grouping column):
group by the key column, compute per-group statistics, sort descending by
proportion, return the first 3. -/
def proportion_by (key : Row → Option String) (t : List Row) : List PropRec :=
  (((groupKeys key t).map (fun k => propRecord (groupRows key t k) k)).insertionSort
    propGE).take 3

/-- `analyze_agent_type_multimodal(df)`: proportion of multimodal support
grouped by `agent_type`, top 3. -/
def analyze_agent_type_multimodal (df : List Row) : List PropRec :=
  proportion_by (fun r => r.agent_type) df

/-- `analyze_model_architecture_multimodal(df)`: proportion of multimodal
support grouped by `model_architecture`, top 3. -/
def analyze_model_architecture_multimodal (df : List Row) : List PropRec :=
  proportion_by (fun r => r.model_architecture) df

/-- The statistical median of a list of rationals: sort ascending, take
the middle element for odd length, the average of the two middle elements
for even length, `none` for an empty list.  This is exactly pandas
`Series.median()` restricted to the non-null values. -/
def statMedian (l : List ℚ) : Option ℚ :=
  let s := l.insertionSort (fun a b => a ≤ b)
  let n := s.length
  if n = 0 then none
  else if n % 2 = 1 then s[n / 2]?
  else
    match s[n / 2 - 1]?, s[n / 2]? with
    | some a, some b => some ((a + b) / 2)
    | _, _ => none

/-- Generic median aggregation underlying
`analyze_task_category_bias_median`: group by the key column, take the
median of the non-null values of the value column in each group, round it
to 4 decimal places, sort descending by median, return the first 3. -/
def median_by (key : Row → Option String) (value : Row → Option ℚ) (t : List Row) :
    List MedRec :=
  (((groupKeys key t).map (fun k =>
      ({ name := k
         median := ((statMedian ((groupRows key t k).filterMap value)).map
           (roundTo 4)) } : MedRec))).insertionSort medGE).take 3

/-- `analyze_task_category_bias_median(df)`: median `bias_detection_score`
grouped by `task_category`, rounded to 4 decimals, top 3. -/
def analyze_task_category_bias_median (df : List Row) : List MedRec :=
  median_by (fun r => r.task_category) (fun r => r.bias_detection_score) df

/-- Decimal rendering of the rationals appearing in the generated JSON.
The script serialises IEEE floats through `json.dumps`; the exact decimal
digit string of a float is a presentation detail abstracted here by exact
rational rendering, with `NaN` for a missing value, as `json.dumps`
renders a float NaN. -/
def jsonQ (x : Option ℚ) : String :=
  match x with
  | none => "NaN"
  | some v => toString v

/-- JSON object for one proportion record, field order as produced by the
script (`name`, `proportion`, `count`, `total`). -/
def jsonPropRec (r : PropRec) : String :=
  "\x7b\"name\": \"" ++ r.name ++ "\", \"proportion\": " ++ jsonQ r.proportion ++
    ", \"count\": " ++ toString r.count ++ ", \"total\": " ++ toString r.total ++ "\x7d"

/-- JSON object for one median record (`name`, `median`). -/
def jsonMedRec (r : MedRec) : String :=
  "\x7b\"name\": \"" ++ r.name ++ "\", \"median\": " ++ jsonQ r.median ++ "\x7d"

/-- JSON array, `json.dumps` style. -/
def jsonArr (items : List String) : String :=
  "[" ++ String.intercalate ", " items ++ "]"

/-- The assembled HTML document (lines 158-450 of `analyze_data.py`).
The static CSS and static chart-configuration text of the template are
presentation-only and abbreviated to their structural landmarks; the
data-bearing parts (the total row count, the embedded chart-library code
and the three serialised JSON arrays) appear in the template's order. -/
def htmlDoc (chartjs_code : String) (a1 a2 : List PropRec) (a3 : List MedRec)
    (total_rows : ℕ) : String :=
  "<!DOCTYPE html>\n<html lang=\"zh-CN\">\n<head>\n<meta charset=\"UTF-8\">\n" ++
  "<title>Agentic AI Performance Dashboard 2025</title>\n</head>\n<body>\n" ++
  "<div class=\"container\">\n<h1>Agentic AI Performance Dashboard 2025</h1>\n" ++
  "<div class=\"info-box\">\n<p><strong>Total records:</strong>" ++
  toString total_rows ++ "</p>\n</div>\n" ++
  "<canvas id=\"chart1\"></canvas>\n<canvas id=\"chart2\"></canvas>\n" ++
  "<canvas id=\"chart3\"></canvas>\n</div>\n" ++
  "<script>\n" ++ chartjs_code ++ "\n</script>\n" ++
  "<script>\nconst data1 = " ++ jsonArr (a1.map jsonPropRec) ++ ";\n" ++
  "const data2 = " ++ jsonArr (a2.map jsonPropRec) ++ ";\n" ++
  "const data3 = " ++ jsonArr (a3.map jsonMedRec) ++ ";\n" ++
  "</script>\n</body>\n</html>"

/-- The error raised by the report assembler when the chart-library
payload cannot be obtained (the spec's `MissingResourceError`; concretely
the `open('/tmp/chartjs.min.js')` of line 149 raising). -/
inductive ReportError where
  | MissingResourceError
deriving DecidableEq, Repr

/-- `generate_html(analysis1, analysis2, analysis3, total_rows)`: reads
the chart-library source (modelled as an `Option String` supplied by the
environment; `none` means the file cannot be obtained) and assembles the
HTML document. -/
def generate_html (chartjs : Option String) (analysis1 analysis2 : List PropRec)
    (analysis3 : List MedRec) (total_rows : ℕ) : Except ReportError String :=
  match chartjs with
  | none => Except.error ReportError.MissingResourceError
  | some code => Except.ok (htmlDoc code analysis1 analysis2 analysis3 total_rows)

/-- Top-level failure taxonomy of the script: the loader (resource or
schema failure of `load_data`) or the missing chart-library resource. -/
inductive PipelineError where
  | loadError
  | missingResource
deriving DecidableEq, Repr

/-- Outcome of one run of the `__main__` block: the final status and the
content written to the output file (`none` when nothing was written). -/
structure MainResult where
  status : Except PipelineError Unit
  written : Option String
deriving Repr

/-- The `__main__` block (lines 456-490): load the data, run the three
aggregations, assemble the HTML, and only then write the output file.
`loaded` is the result of `load_data()` (the out-of-scope loader
collaborator), `chartjs` the chart-library payload.  Any failure
propagates and nothing is written. -/
def runMain (loaded : Except PipelineError (List Row)) (chartjs : Option String) :
    MainResult :=
  match loaded with
  | Except.error e => { status := Except.error e, written := none }
  | Except.ok df =>
    let total_rows := df.length
    let result1 := analyze_agent_type_multimodal df
    let result2 := analyze_model_architecture_multimodal df
    let result3 := analyze_task_category_bias_median df
    match generate_html chartjs result1 result2 result3 total_rows with
    | Except.error _ => { status := Except.error PipelineError.missingResource, written := none }
    | Except.ok html => { status := Except.ok (), written := some html }

/-- Convenience constructor for concrete test rows: the same label is used
for all three grouping columns. -/
def mkRow (g : Option String) (flag : Option Bool) (score : Option ℚ) : Row :=
  { agent_type := g
    model_architecture := g
    task_category := g
    multimodal_capability := flag
    bias_detection_score := score }

/-- A one-row table whose single group has a null flag value. -/
def tNullFlag : List Row := [mkRow (some "A") none none]

/-- A one-row table whose single group has flag `false`. -/
def tFalse : List Row := [mkRow (some "A") (some false) none]

/-- The spec's odd-sized median scenario: one group with scores
0.1, 0.5, 0.9. -/
def tMedOdd : List Row :=
  [mkRow (some "X") none (some 0.1), mkRow (some "X") none (some 0.5),
   mkRow (some "X") none (some 0.9)]

/-- The spec's even-sized median scenario: one group with scores
0.2, 0.4, 0.6, 0.8. -/
def tMedEven : List Row :=
  [mkRow (some "X") none (some 0.2), mkRow (some "X") none (some 0.4),
   mkRow (some "X") none (some 0.6), mkRow (some "X") none (some 0.8)]

/-! ### Helper lemmas -/

lemma roundHalfEven_nonneg {x : ℚ} (hx : 0 ≤ x) : 0 ≤ roundHalfEven x := by
  have h0 : (0:ℤ) ≤ ⌊x⌋ := Int.floor_nonneg.mpr hx
  unfold roundHalfEven
  split_ifs <;> omega

lemma roundHalfEven_le {x : ℚ} {B : ℤ} (hx : x ≤ (B:ℚ)) : roundHalfEven x ≤ B := by
  have hfl : ⌊x⌋ ≤ B := by
    have h := Int.floor_le_floor hx
    simpa using h
  have hsucc : ¬ x - ⌊x⌋ < 1/2 → ⌊x⌋ + 1 ≤ B := by
    intro h
    push_neg at h
    rcases lt_or_eq_of_le hfl with h' | h'
    · omega
    · exfalso
      have h2 : (⌊x⌋:ℚ) + 1/2 ≤ x := by linarith
      rw [h'] at h2
      linarith
  unfold roundHalfEven
  split_ifs with h1 h2 h3
  · exact hfl
  · exact hsucc h1
  · exact hfl
  · exact hsucc h1

lemma roundTo_nonneg {n : ℕ} {x : ℚ} (hx : 0 ≤ x) : 0 ≤ roundTo n x := by
  unfold roundTo
  apply div_nonneg
  · exact_mod_cast roundHalfEven_nonneg (mul_nonneg hx (by positivity))
  · positivity

lemma roundTo_le {n : ℕ} {x : ℚ} {B : ℤ} (hx : x ≤ (B:ℚ)) : roundTo n x ≤ (B:ℚ) := by
  unfold roundTo
  rw [div_le_iff (by positivity : (0:ℚ) < 10 ^ n)]
  have h1 : x * 10 ^ n ≤ ((B * 10 ^ n : ℤ) : ℚ) := by
    push_cast
    exact mul_le_mul_of_nonneg_right hx (by positivity)
  have h2 := roundHalfEven_le h1
  calc (roundHalfEven (x * 10 ^ n) : ℚ) ≤ ((B * 10 ^ n : ℤ) : ℚ) := by exact_mod_cast h2
    _ = (B : ℚ) * 10 ^ n := by push_cast; ring

lemma mem_groupKeys {key : Row → Option String} {t : List Row} {k : String} :
    k ∈ groupKeys key t ↔ ∃ r ∈ t, key r = some k := by
  unfold groupKeys
  rw [(List.perm_insertionSort _ _).mem_iff, List.mem_dedup, List.mem_filterMap]

lemma mem_proportion_by {key : Row → Option String} {t : List Row} {r : PropRec}
    (h : r ∈ proportion_by key t) :
    ∃ k ∈ groupKeys key t, r = propRecord (groupRows key t k) k := by
  unfold proportion_by at h
  have h1 := List.take_subset 3 _ h
  have h2 := (List.perm_insertionSort propGE _).mem_iff.mp h1
  obtain ⟨k, hk, hr⟩ := List.mem_map.mp h2
  exact ⟨k, hk, hr.symm⟩

lemma mem_median_by {key : Row → Option String} {value : Row → Option ℚ} {t : List Row}
    {r : MedRec} (h : r ∈ median_by key value t) :
    ∃ k ∈ groupKeys key t,
      r = { name := k
            median := ((statMedian ((groupRows key t k).filterMap value)).map
              (roundTo 4)) } := by
  unfold median_by at h
  have h1 := List.take_subset 3 _ h
  have h2 := (List.perm_insertionSort medGE _).mem_iff.mp h1
  obtain ⟨k, hk, hr⟩ := List.mem_map.mp h2
  exact ⟨k, hk, hr.symm⟩

lemma groupRows_length_pos {key : Row → Option String} {t : List Row} {k : String}
    (h : k ∈ groupKeys key t) : 0 < (groupRows key t k).length := by
  obtain ⟨r, hr, hk⟩ := mem_groupKeys.mp h
  have hmem : r ∈ groupRows key t k := List.mem_filter.mpr ⟨hr, by simp [hk]⟩
  exact List.length_pos_of_mem hmem

lemma count_true_eq (rows : List Row) :
    ((rows.filterMap (fun r => r.multimodal_capability)).filter (fun b => b)).length
      = (rows.filter (fun r => r.multimodal_capability == some true)).length := by
  induction rows with
  | nil => rfl
  | cons a rows ih =>
    rcases h : a.multimodal_capability with _ | b
    · simpa [List.filterMap_cons, List.filter_cons, h] using ih
    · cases b <;> simp [List.filterMap_cons, List.filter_cons, h, ih]

lemma filterMap_key_filter (key : Row → Option String) (t : List Row) :
    ((t.filter (fun r => (key r).isSome)).filterMap key) = t.filterMap key := by
  induction t with
  | nil => rfl
  | cons a t ih =>
    rcases h : key a with _ | k <;>
      simp [List.filter_cons, List.filterMap_cons, h, ih]

lemma groupKeys_filter (key : Row → Option String) (t : List Row) :
    groupKeys key (t.filter (fun r => (key r).isSome)) = groupKeys key t := by
  unfold groupKeys
  rw [filterMap_key_filter]

lemma groupRows_filter (key : Row → Option String) (t : List Row) (k : String) :
    groupRows key (t.filter (fun r => (key r).isSome)) k = groupRows key t k := by
  unfold groupRows
  rw [List.filter_filter]
  apply List.filter_congr
  intro r _
  rcases h : key r with _ | k' <;> simp [h]

lemma proportion_by_filter (key : Row → Option String) (t : List Row) :
    proportion_by key (t.filter (fun r => (key r).isSome)) = proportion_by key t := by
  unfold proportion_by
  have hmap : List.map
      (fun k => propRecord (groupRows key (t.filter (fun r => (key r).isSome)) k) k)
      (groupKeys key t)
      = List.map (fun k => propRecord (groupRows key t k) k) (groupKeys key t) :=
    List.map_congr_left (fun k _ => by rw [groupRows_filter])
  rw [groupKeys_filter, hmap]

lemma median_by_filter (key : Row → Option String) (value : Row → Option ℚ)
    (t : List Row) :
    median_by key value (t.filter (fun r => (key r).isSome)) = median_by key value t := by
  unfold median_by
  have hmap : List.map
      (fun k => ({ name := k
                   median := ((statMedian
                     ((groupRows key (t.filter (fun r => (key r).isSome)) k).filterMap
                       value)).map (roundTo 4)) } : MedRec))
      (groupKeys key t)
      = List.map (fun k => ({ name := k
                              median := ((statMedian
                                ((groupRows key t k).filterMap value)).map
                                  (roundTo 4)) } : MedRec)) (groupKeys key t) :=
    List.map_congr_left (fun k _ => by rw [groupRows_filter])
  rw [groupKeys_filter, hmap]

lemma proportion_by_length (key : Row → Option String) (t : List Row) :
    (proportion_by key t).length = min 3 (groupKeys key t).length := by
  unfold proportion_by
  rw [List.length_take, List.length_insertionSort, List.length_map]

lemma median_by_length (key : Row → Option String) (value : Row → Option ℚ)
    (t : List Row) :
    (median_by key value t).length = min 3 (groupKeys key t).length := by
  unfold median_by
  rw [List.length_take, List.length_insertionSort, List.length_map]

lemma all_groups_mem_of_le {key : Row → Option String} {t : List Row}
    (h : (groupKeys key t).length ≤ 3) :
    ∀ k ∈ groupKeys key t, ∃ r ∈ proportion_by key t, r.name = k := by
  intro k hk
  refine ⟨propRecord (groupRows key t k) k, ?_, rfl⟩
  unfold proportion_by
  rw [List.take_of_length_le
    (by rw [List.length_insertionSort, List.length_map]; exact h)]
  exact (List.perm_insertionSort propGE _).mem_iff.mpr (List.mem_map_of_mem _ hk)

lemma proportion_by_pairwise (key : Row → Option String) (t : List Row) :
    (proportion_by key t).Pairwise propGE :=
  List.Pairwise.sublist (List.take_sublist 3 _) (List.sorted_insertionSort propGE _)

lemma median_by_pairwise (key : Row → Option String) (value : Row → Option ℚ)
    (t : List Row) :
    (median_by key value t).Pairwise medGE :=
  List.Pairwise.sublist (List.take_sublist 3 _) (List.sorted_insertionSort medGE _)

lemma propRecord_mem {key : Row → Option String} {t : List Row} {k : String}
    (hk : k ∈ groupKeys key t) (h3 : (groupKeys key t).length ≤ 3) :
    propRecord (groupRows key t k) k ∈ proportion_by key t := by
  unfold proportion_by
  rw [List.take_of_length_le
    (by rw [List.length_insertionSort, List.length_map]; exact h3)]
  exact (List.perm_insertionSort propGE _).mem_iff.mpr (List.mem_map_of_mem _ hk)

lemma propRec_spec {key : Row → Option String} {t : List Row} {r : PropRec}
    (h : r ∈ proportion_by key t) :
    r.total = ((groupRows key t r.name).filterMap
        (fun x => x.multimodal_capability)).length ∧
    r.count = ((groupRows key t r.name).filter
        (fun x => x.multimodal_capability == some true)).length ∧
    (0 < r.total →
      r.proportion = some (roundTo 2 ((r.count : ℚ) / (r.total : ℚ) * 100)) ∧
      ∃ p, r.proportion = some p ∧ 0 ≤ p ∧ p ≤ 100) := by
  obtain ⟨k, hk, rfl⟩ := mem_proportion_by h
  refine ⟨rfl, count_true_eq _, ?_⟩
  intro hpos
  have htpos : 0 < ((groupRows key t k).filterMap
      (fun x => x.multimodal_capability)).length := hpos
  have hne : ((groupRows key t k).filterMap
      (fun x => x.multimodal_capability)).length ≠ 0 := Nat.pos_iff_ne_zero.mp htpos
  have hprop : (propRecord (groupRows key t k) k).proportion
      = some (roundTo 2
        ((((propRecord (groupRows key t k) k).count : ℚ)
          / ((propRecord (groupRows key t k) k).total : ℚ)) * 100)) := by
    show (if ((groupRows key t k).filterMap
        (fun x => x.multimodal_capability)).length = 0 then _ else _) = _
    rw [if_neg hne]
    rfl
  refine ⟨hprop, roundTo 2
      ((((propRecord (groupRows key t k) k).count : ℚ)
        / ((propRecord (groupRows key t k) k).total : ℚ)) * 100), hprop, ?_, ?_⟩
  · apply roundTo_nonneg
    apply mul_nonneg _ (by norm_num)
    exact div_nonneg (Nat.cast_nonneg _) (Nat.cast_nonneg _)
  · have hc : (propRecord (groupRows key t k) k).count
        ≤ (propRecord (groupRows key t k) k).total := List.length_filter_le _ _
    have hx : (((propRecord (groupRows key t k) k).count : ℚ)
        / ((propRecord (groupRows key t k) k).total : ℚ)) * 100 ≤ ((100 : ℤ) : ℚ) := by
      have htotpos : (0 : ℚ) < ((propRecord (groupRows key t k) k).total : ℚ) := by
        exact_mod_cast hpos
      have hdiv : (((propRecord (groupRows key t k) k).count : ℚ)
          / ((propRecord (groupRows key t k) k).total : ℚ)) ≤ 1 := by
        rw [div_le_one htotpos]
        exact_mod_cast hc
      push_cast
      nlinarith
    have := roundTo_le (n := 2) hx
    exact_mod_cast this

lemma propRec_group_nonempty {key : Row → Option String} {t : List Row} {r : PropRec}
    (h : r ∈ proportion_by key t) :
    0 < (groupRows key t r.name).length ∧
    ((∀ x ∈ groupRows key t r.name, x.multimodal_capability ≠ none) → 0 < r.total) := by
  obtain ⟨k, hk, rfl⟩ := mem_proportion_by h
  constructor
  · exact groupRows_length_pos hk
  · intro hall
    obtain ⟨x, hx⟩ := List.exists_mem_of_length_pos (groupRows_length_pos hk)
    rcases hflag : x.multimodal_capability with _ | b
    · exact absurd hflag (hall x hx)
    · have hb : b ∈ (groupRows key t k).filterMap (fun r => r.multimodal_capability) :=
        List.mem_filterMap.mpr ⟨x, hx, hflag⟩
      exact List.length_pos_of_mem hb

/-! ### Claim theorems -/

/-- C2: for every table, each proportion aggregation sorts all groups
descending by proportion and returns the first 3; its output length is
`min 3 (number of distinct groups)` — hence at most 3 and at most the
number of distinct groups — and when at most 3 distinct groups exist
every group appears in the output (no padding, no error). -/
theorem C2_top3_truncation (t : List Row) :
    (analyze_agent_type_multimodal t).length
        = min 3 (groupKeys (fun r => r.agent_type) t).length ∧
    (analyze_model_architecture_multimodal t).length
        = min 3 (groupKeys (fun r => r.model_architecture) t).length ∧
    (analyze_agent_type_multimodal t).Pairwise propGE ∧
    (analyze_model_architecture_multimodal t).Pairwise propGE ∧
    ((groupKeys (fun r => r.agent_type) t).length ≤ 3 →
      ∀ k ∈ groupKeys (fun r => r.agent_type) t,
        ∃ r ∈ analyze_agent_type_multimodal t, r.name = k) ∧
    ((groupKeys (fun r => r.model_architecture) t).length ≤ 3 →
      ∀ k ∈ groupKeys (fun r => r.model_architecture) t,
        ∃ r ∈ analyze_model_architecture_multimodal t, r.name = k) :=
  ⟨proportion_by_length _ _, proportion_by_length _ _,
    proportion_by_pairwise _ _, proportion_by_pairwise _ _,
    fun h => all_groups_mem_of_le h, fun h => all_groups_mem_of_le h⟩

/-- Witness for C2 at a concrete one-group table: the output has exactly
one record, the single group "A", with no padding. -/
theorem C2_witness :
    (analyze_agent_type_multimodal tNullFlag).length
        = min 3 (groupKeys (fun r => r.agent_type) tNullFlag).length ∧
    (∃ r ∈ analyze_agent_type_multimodal tNullFlag, r.name = "A") := by
  have h := C2_top3_truncation tNullFlag
  exact ⟨h.1, h.2.2.2.2.1 (by decide) "A" (by decide)⟩

/-- C4: the three aggregations and the whole pipeline are pure functions
of their input in this embedding, so two runs on the same table and the
same chart-library payload agree exactly, in particular the written HTML
output is byte-identical. -/
theorem C4_determinism (loaded : Except PipelineError (List Row))
    (chartjs : Option String) (df : List Row) :
    analyze_agent_type_multimodal df = analyze_agent_type_multimodal df ∧
    analyze_model_architecture_multimodal df = analyze_model_architecture_multimodal df ∧
    analyze_task_category_bias_median df = analyze_task_category_bias_median df ∧
    runMain loaded chartjs = runMain loaded chartjs ∧
    (runMain loaded chartjs).written = (runMain loaded chartjs).written :=
  ⟨rfl, rfl, rfl, rfl, rfl⟩

/-- C5: `generate_html` fails with `MissingResourceError` exactly when the
chart-library source cannot be obtained, and succeeds on every well-formed
input otherwise; on the empty table all three aggregations return the
empty list and the full pipeline still succeeds with `total_rows = 0`. -/
theorem C5_error_conditions :
    (∀ (a1 a2 : List PropRec) (a3 : List MedRec) (n : ℕ),
        generate_html none a1 a2 a3 n
          = Except.error ReportError.MissingResourceError) ∧
    (∀ (c : String) (a1 a2 : List PropRec) (a3 : List MedRec) (n : ℕ),
        generate_html (some c) a1 a2 a3 n = Except.ok (htmlDoc c a1 a2 a3 n)) ∧
    analyze_agent_type_multimodal [] = [] ∧
    analyze_model_architecture_multimodal [] = [] ∧
    analyze_task_category_bias_median [] = [] ∧
    (∀ c : String, runMain (Except.ok []) (some c)
        = { status := Except.ok (), written := some (htmlDoc c [] [] [] 0) }) :=
  ⟨fun _ _ _ _ => rfl, fun _ _ _ _ _ => rfl, rfl, rfl, rfl, fun _ => rfl⟩

/-- C6: in every record produced by the two proportion aggregations (the
records serialised verbatim into the `data1`/`data2` JSON arrays), `count`
and `total` are non-negative integers with `count ≤ total`. -/
theorem C6_count_le_total (t : List Row) (r : PropRec)
    (h : r ∈ analyze_agent_type_multimodal t
      ∨ r ∈ analyze_model_architecture_multimodal t) :
    r.count ≤ r.total ∧ 0 ≤ (r.count : ℤ) ∧ 0 ≤ (r.total : ℤ) := by
  refine ⟨?_, Int.ofNat_nonneg _, Int.ofNat_nonneg _⟩
  rcases h with h | h <;>
  · obtain ⟨k, _, rfl⟩ := mem_proportion_by h
    exact List.length_filter_le _ _

/-- Witness for C6 at a concrete table and record. -/
theorem C6_witness :
    (propRecord (groupRows (fun x => x.agent_type) tFalse "A") "A").count
        ≤ (propRecord (groupRows (fun x => x.agent_type) tFalse "A") "A").total ∧
    0 ≤ ((propRecord (groupRows (fun x => x.agent_type) tFalse "A") "A").count : ℤ) ∧
    0 ≤ ((propRecord (groupRows (fun x => x.agent_type) tFalse "A") "A").total : ℤ) :=
  C6_count_le_total tFalse _ (Or.inl (propRecord_mem (by decide) (by decide)))

/-- C7: the output document is written only when every aggregation and
the report assembly succeeded; on any modelled failure (loader error or
missing chart-library resource) nothing at all is written. -/
theorem C7_no_partial_output (loaded : Except PipelineError (List Row))
    (chartjs : Option String) :
    ((runMain loaded chartjs).status = Except.ok ()
        ∨ (runMain loaded chartjs).written = none) ∧
    (∀ e : PipelineError, runMain (Except.error e) chartjs
        = { status := Except.error e, written := none }) := by
  constructor
  · rcases loaded with e | df
    · right; rfl
    · rcases chartjs with _ | c
      · right; rfl
      · left; rfl
  · intro e; rfl

/-- C9: rows whose grouping-key column is null are silently excluded from
all three aggregations — deleting them from the table does not change any
aggregation's output. -/
theorem C9_null_keys_excluded (t : List Row) :
    analyze_agent_type_multimodal (t.filter (fun r => (r.agent_type).isSome))
        = analyze_agent_type_multimodal t ∧
    analyze_model_architecture_multimodal
        (t.filter (fun r => (r.model_architecture).isSome))
        = analyze_model_architecture_multimodal t ∧
    analyze_task_category_bias_median (t.filter (fun r => (r.task_category).isSome))
        = analyze_task_category_bias_median t :=
  ⟨proportion_by_filter _ _, proportion_by_filter _ _, median_by_filter _ _ _⟩

/-- C1 counterexample: on a one-row table whose single row has a null
flag value, the group "A" has 1 row but the returned record has
`total = 0` (pandas `count()` counts non-null flag values, not rows), and
its proportion is NaN — so the claim "total equals the row count of the
group" (and hence `0 ≤ proportion ≤ 100`) is false as stated. -/
theorem C1_counterexample :
    (¬ ∀ r ∈ analyze_agent_type_multimodal tNullFlag,
        r.total = (groupRows (fun x => x.agent_type) tNullFlag r.name).length) ∧
    analyze_agent_type_multimodal tNullFlag
      = [{ name := "A", proportion := none, count := 0, total := 0 }] := by
  exact ⟨by decide, by decide⟩

/-- C1 (amended): for every record returned by either proportion
aggregation, `total` is the number of rows of the group whose flag value
is non-null, `count` is the number of rows whose flag is true, and —
whenever `total > 0` — `proportion = round(count / total * 100, 2)` with
`0 ≤ proportion ≤ 100`. -/
theorem C1_proportion_record_stats (t : List Row) (r : PropRec) :
    (r ∈ analyze_agent_type_multimodal t →
      r.total = ((groupRows (fun x => x.agent_type) t r.name).filterMap
          (fun x => x.multimodal_capability)).length ∧
      r.count = ((groupRows (fun x => x.agent_type) t r.name).filter
          (fun x => x.multimodal_capability == some true)).length ∧
      (0 < r.total →
        r.proportion = some (roundTo 2 ((r.count : ℚ) / (r.total : ℚ) * 100)) ∧
        ∃ p, r.proportion = some p ∧ 0 ≤ p ∧ p ≤ 100)) ∧
    (r ∈ analyze_model_architecture_multimodal t →
      r.total = ((groupRows (fun x => x.model_architecture) t r.name).filterMap
          (fun x => x.multimodal_capability)).length ∧
      r.count = ((groupRows (fun x => x.model_architecture) t r.name).filter
          (fun x => x.multimodal_capability == some true)).length ∧
      (0 < r.total →
        r.proportion = some (roundTo 2 ((r.count : ℚ) / (r.total : ℚ) * 100)) ∧
        ∃ p, r.proportion = some p ∧ 0 ≤ p ∧ p ≤ 100)) :=
  ⟨fun h => propRec_spec h, fun h => propRec_spec h⟩

/-- Witness for the amended C1 at a concrete one-group table with flag
`false`: its single record has `total = 1 > 0`, so the proportion formula
and its bounds hold there. -/
theorem C1_witness :
    (propRecord (groupRows (fun x => x.agent_type) tFalse "A") "A").total
      = ((groupRows (fun x => x.agent_type) tFalse "A").filterMap
          (fun x => x.multimodal_capability)).length ∧
    (propRecord (groupRows (fun x => x.agent_type) tFalse "A") "A").count
      = ((groupRows (fun x => x.agent_type) tFalse "A").filter
          (fun x => x.multimodal_capability == some true)).length ∧
    ((propRecord (groupRows (fun x => x.agent_type) tFalse "A") "A").proportion
        = some (roundTo 2
          (((propRecord (groupRows (fun x => x.agent_type) tFalse "A") "A").count : ℚ)
            / ((propRecord (groupRows (fun x => x.agent_type) tFalse "A") "A").total : ℚ)
            * 100)) ∧
      ∃ p, (propRecord (groupRows (fun x => x.agent_type) tFalse "A") "A").proportion
          = some p ∧ 0 ≤ p ∧ p ≤ 100) := by
  have h := (C1_proportion_record_stats tFalse
      (propRecord (groupRows (fun x => x.agent_type) tFalse "A") "A")).1
    (propRecord_mem (by decide) (by decide))
  exact ⟨h.1, h.2.1, h.2.2 (by decide)⟩

/-- C8 counterexample: the claim "for every group produced by the
aggregations, total > 0" fails on a table whose single group exists (it
has one row) but whose only flag value is null, giving `total = 0`. -/
theorem C8_counterexample :
    ¬ ∀ r ∈ analyze_agent_type_multimodal tNullFlag, 0 < r.total := by
  decide

/-- C8 (amended): a group with zero rows indeed cannot exist — every
returned record's group has at least one row — but `total` counts only
non-null flag values, so `total > 0` (safety of the division) is
guaranteed only when the group's flag values are all non-null. -/
theorem C8_group_nonempty (t : List Row) (r : PropRec) :
    (r ∈ analyze_agent_type_multimodal t →
      0 < (groupRows (fun x => x.agent_type) t r.name).length ∧
      ((∀ x ∈ groupRows (fun x => x.agent_type) t r.name,
          x.multimodal_capability ≠ none) → 0 < r.total)) ∧
    (r ∈ analyze_model_architecture_multimodal t →
      0 < (groupRows (fun x => x.model_architecture) t r.name).length ∧
      ((∀ x ∈ groupRows (fun x => x.model_architecture) t r.name,
          x.multimodal_capability ≠ none) → 0 < r.total)) :=
  ⟨fun h => propRec_group_nonempty h, fun h => propRec_group_nonempty h⟩

/-- Witness for the amended C8 at a concrete table whose flag values are
all non-null: the group is non-empty and `total > 0`. -/
theorem C8_witness :
    0 < (groupRows (fun x => x.agent_type) tFalse "A").length ∧
    0 < (propRecord (groupRows (fun x => x.agent_type) tFalse "A") "A").total := by
  have h := (C8_group_nonempty tFalse
      (propRecord (groupRows (fun x => x.agent_type) tFalse "A") "A")).1
    (propRecord_mem (by decide) (by decide))
  exact ⟨h.1, h.2 (by decide)⟩

/-- C10: a group that has rows but only null flag values gets
`total = 0` and a NaN (`none`) proportion, since `total` counts only
non-null flag values and the division is not guarded; such a record still
enters the sorted output when at most 3 groups exist. -/
theorem C10_null_flags_group (key : Row → Option String) (t : List Row) (k : String)
    (hk : k ∈ groupKeys key t)
    (hnull : ∀ x ∈ groupRows key t k, x.multimodal_capability = none) :
    0 < (groupRows key t k).length ∧
    (propRecord (groupRows key t k) k).total = 0 ∧
    (propRecord (groupRows key t k) k).proportion = none ∧
    ((groupKeys key t).length ≤ 3 →
      propRecord (groupRows key t k) k ∈ proportion_by key t) := by
  have hnil : (groupRows key t k).filterMap (fun r => r.multimodal_capability) = [] :=
    List.filterMap_eq_nil_iff.mpr hnull
  refine ⟨groupRows_length_pos hk, ?_, ?_, fun h3 => propRecord_mem hk h3⟩
  · show ((groupRows key t k).filterMap (fun r => r.multimodal_capability)).length = 0
    rw [hnil]
    rfl
  · show (if ((groupRows key t k).filterMap
        (fun r => r.multimodal_capability)).length = 0 then none else _) = none
    rw [hnil]
    rfl

/-- Witness for C10: the one-row table with a null flag produces the
record `⟨"A", NaN, 0, 0⟩`, which appears in the aggregation output. -/
theorem C10_witness :
    0 < (groupRows (fun x => x.agent_type) tNullFlag "A").length ∧
    (propRecord (groupRows (fun x => x.agent_type) tNullFlag "A") "A").total = 0 ∧
    (propRecord (groupRows (fun x => x.agent_type) tNullFlag "A") "A").proportion
        = none ∧
    propRecord (groupRows (fun x => x.agent_type) tNullFlag "A") "A"
      ∈ analyze_agent_type_multimodal tNullFlag := by
  have h := C10_null_flags_group (fun x => x.agent_type) tNullFlag "A"
    (by decide) (by decide)
  exact ⟨h.1, h.2.1, h.2.2.1, h.2.2.2 (by decide)⟩

lemma roundHalfEven_intCast (z : ℤ) : roundHalfEven (z : ℚ) = z := by
  unfold roundHalfEven
  rw [Int.floor_intCast]
  norm_num

lemma roundTo_four_half : roundTo 4 (1/2 : ℚ) = 1/2 := by
  unfold roundTo
  have h1 : (1/2 : ℚ) * 10 ^ 4 = ((5000 : ℤ) : ℚ) := by norm_num
  rw [h1, roundHalfEven_intCast]
  norm_num

lemma statMedian_odd_scenario : statMedian [(0.1 : ℚ), 0.5, 0.9] = some (1/2) := by
  have hsort : ([(0.1 : ℚ), 0.5, 0.9]).insertionSort (fun a b => a ≤ b)
      = [0.1, 0.5, 0.9] := by
    simp [List.insertionSort, List.orderedInsert]
    norm_num
  unfold statMedian
  simp only [hsort]
  norm_num

lemma statMedian_even_scenario : statMedian [(0.2 : ℚ), 0.4, 0.6, 0.8] = some (1/2) := by
  have hsort : ([(0.2 : ℚ), 0.4, 0.6, 0.8]).insertionSort (fun a b => a ≤ b)
      = [0.2, 0.4, 0.6, 0.8] := by
    simp [List.insertionSort, List.orderedInsert]
    norm_num
  unfold statMedian
  simp only [hsort]
  norm_num

/-- C3: the median aggregation computes the standard even/odd-count
median of the group's (non-null) score values, rounds it to 4 decimal
places, and returns at most 3 records sorted non-increasing by median
(NaN last); the group {0.1, 0.5, 0.9} yields median 0.5 and the group
{0.2, 0.4, 0.6, 0.8} yields median 0.5. -/
theorem C3_median_aggregation (t : List Row) :
    (analyze_task_category_bias_median t).length ≤ 3 ∧
    (analyze_task_category_bias_median t).Pairwise medGE ∧
    (∀ r ∈ analyze_task_category_bias_median t,
      r.median = (statMedian ((groupRows (fun x => x.task_category) t r.name).filterMap
        (fun x => x.bias_detection_score))).map (roundTo 4)) ∧
    analyze_task_category_bias_median tMedOdd
      = [{ name := "X", median := some (1/2) }] ∧
    analyze_task_category_bias_median tMedEven
      = [{ name := "X", median := some (1/2) }] := by
  refine ⟨?_, median_by_pairwise _ _ _, ?_, ?_, ?_⟩
  · have h := median_by_length (fun r => r.task_category)
      (fun r => r.bias_detection_score) t
    exact le_trans (le_of_eq h) (min_le_left _ _)
  · intro r hr
    obtain ⟨k, hk, rfl⟩ := mem_median_by hr
    rfl
  · show median_by _ _ _ = _
    unfold median_by
    have hkeys : groupKeys (fun r => r.task_category) tMedOdd = ["X"] := by decide
    have hvals : (groupRows (fun r => r.task_category) tMedOdd "X").filterMap
        (fun r => r.bias_detection_score) = [0.1, 0.5, 0.9] := rfl
    rw [hkeys, List.map_cons, List.map_nil, hvals, statMedian_odd_scenario]
    simp [List.insertionSort, List.orderedInsert]
    have h2 : ((2 : ℚ))⁻¹ = 1/2 := by norm_num
    rw [h2]
    exact roundTo_four_half
  · show median_by _ _ _ = _
    unfold median_by
    have hkeys : groupKeys (fun r => r.task_category) tMedEven = ["X"] := by decide
    have hvals : (groupRows (fun r => r.task_category) tMedEven "X").filterMap
        (fun r => r.bias_detection_score) = [0.2, 0.4, 0.6, 0.8] := rfl
    rw [hkeys, List.map_cons, List.map_nil, hvals, statMedian_even_scenario]
    simp [List.insertionSort, List.orderedInsert]
    have h2 : ((2 : ℚ))⁻¹ = 1/2 := by norm_num
    rw [h2]
    exact roundTo_four_half

/-- Witness for C3: on the odd-scenario table the (only) output record's
median equals the rounded statistical median of its group's values. -/
theorem C3_witness :
    ({ name := "X", median := some (1/2) } : MedRec).median
      = (statMedian ((groupRows (fun x => x.task_category) tMedOdd "X").filterMap
          (fun x => x.bias_detection_score))).map (roundTo 4) ∧
    analyze_task_category_bias_median tMedOdd
      = [{ name := "X", median := some (1/2) }] := by
  have h := C3_median_aggregation tMedOdd
  have hmem : ({ name := "X", median := some (1/2) } : MedRec)
      ∈ analyze_task_category_bias_median tMedOdd := by
    rw [h.2.2.2.1]
    exact List.mem_singleton.mpr rfl
  exact ⟨h.2.2.1 _ hmem, h.2.2.2.1⟩
